import Mathlib

/-
  Shallow embedding of the Local-Canvas editing engine
  (src/src/hooks/useHistory.ts, src/src/hooks/useCanvas.ts,
   src/src/utils/shapeUtils.ts, src/src/utils/exportUtils.ts,
   src/src/components/Canvas.tsx, src/src/App.tsx).

  JavaScript numbers are modelled as exact rationals; the literal 0.1 is
  modelled as 1/10 and 0.6 as 6/10.  Optional fields of the TypeScript
  interfaces are modelled with Option.
-/

namespace LocalCanvas

/-- Document-space coordinates (types.ts, interface Point). -/
@[ext]
structure Point where
  x : ℚ
  y : ℚ
deriving DecidableEq

/-- Viewport offset and zoom (types.ts, interface ViewportState). -/
structure ViewportState where
  offsetX : ℚ
  offsetY : ℚ
  zoom : ℚ
deriving DecidableEq

/-- Axis-aligned bounding box (types.ts, interface BoundingBox). -/
@[ext]
structure BoundingBox where
  x : ℚ
  y : ℚ
  width : ℚ
  height : ℚ
deriving DecidableEq

/-- The tool union (types.ts, type Tool). -/
inductive Tool where
  | select
  | pen
  | rectangle
  | circle
  | line
  | arrow
  | text
deriving DecidableEq

/-- Variant payload of the discriminated shape union (types.ts):
    pen carries its point list, line and arrow carry endX and endY,
    text carries its string, fontSize and fontFamily. -/
inductive ShapeKind where
  | pen (points : List Point)
  | rectangle
  | circle
  | line (endX : ℚ) (endY : ℚ)
  | arrow (endX : ℚ) (endY : ℚ)
  | text (content : String) (fontSize : ℚ) (fontFamily : String)
deriving DecidableEq

/-- A shape: the BaseShape fields of types.ts plus the variant payload.
    rotation, selected and zIndex are optional in the source. -/
structure Shape where
  id : String
  x : ℚ
  y : ℚ
  width : ℚ
  height : ℚ
  strokeColor : String
  fillColor : String
  strokeWidth : ℚ
  roughness : ℚ
  rotation : Option ℚ := none
  selected : Option Bool := none
  zIndex : Option ℚ := none
  kind : ShapeKind
deriving DecidableEq

/-- The document snapshot (types.ts, interface CanvasState). -/
structure CanvasState where
  shapes : List Shape
  selectedShapeId : Option String
  currentTool : Tool
  strokeColor : String
  fillColor : String
  strokeWidth : ℚ
  roughness : ℚ
  fontSize : ℚ
  fontFamily : String
  viewport : ViewportState
deriving DecidableEq

/-- History wrapper (types.ts, interface HistoryState). -/
structure HistoryState where
  past : List CanvasState
  present : CanvasState
  future : List CanvasState
deriving DecidableEq

/-- useHistory.ts: const MAX_HISTORY_SIZE = 50. -/
def MAX_HISTORY_SIZE : Nat := 50

/-- useHistory.ts, pushToHistory: append present to past, shift the first
    entry off when the length exceeds MAX_HISTORY_SIZE, install the new
    present and clear future. -/
def pushToHistory (h : HistoryState) (newState : CanvasState) : HistoryState :=
  { past := if (h.past ++ [h.present]).length > MAX_HISTORY_SIZE
            then (h.past ++ [h.present]).drop 1
            else h.past ++ [h.present]
    present := newState
    future := [] }

/-- useHistory.ts, replacePresent: overwrite present, leave past and future. -/
def replacePresent (h : HistoryState) (newState : CanvasState) : HistoryState :=
  { h with present := newState }

/-- useHistory.ts, undo: if past is empty the state is unchanged and the
    current present is returned; otherwise the last past entry becomes
    present, the old present is prepended to future, and the popped entry
    is returned. -/
def undo (h : HistoryState) : HistoryState × CanvasState :=
  match h.past.getLast? with
  | none => (h, h.present)
  | some previous =>
      ({ past := h.past.dropLast
         present := previous
         future := h.present :: h.future }, previous)

/-- useHistory.ts, redo: if future is empty the state is unchanged and the
    current present is returned; otherwise the first future entry becomes
    present and the old present is appended to past. -/
def redo (h : HistoryState) : HistoryState × CanvasState :=
  match h.future with
  | [] => (h, h.present)
  | next :: rest =>
      ({ past := h.past ++ [h.present]
         present := next
         future := rest }, next)

/-- useHistory.ts: the hook starts with empty past and future. -/
def initialHistory (c : CanvasState) : HistoryState :=
  { past := [], present := c, future := [] }

/-- A sequence of commit calls, applied left to right. -/
def applyCommits (h : HistoryState) (l : List CanvasState) : HistoryState :=
  l.foldl pushToHistory h

/-- useCanvas.ts, initialCanvasState. -/
def initialCanvasState : CanvasState :=
  { shapes := []
    selectedShapeId := none
    currentTool := .pen
    strokeColor := "#ffffff"
    fillColor := "transparent"
    strokeWidth := 2
    roughness := 0
    fontSize := 16
    fontFamily := "Arial, sans-serif"
    viewport := { offsetX := 0, offsetY := 0, zoom := 1 } }

/-- Minimum of a list of rationals, as Math.min applied to a spread
    array: meaningful on non-empty lists (0 on the empty list, a case the
    source never evaluates). -/
def listMin : List ℚ → ℚ
  | [] => 0
  | x :: xs => xs.foldl min x

/-- Maximum of a list of rationals, as Math.max applied to a spread
    array: meaningful on non-empty lists. -/
def listMax : List ℚ → ℚ
  | [] => 0
  | x :: xs => xs.foldl max x

/-- shapeUtils.ts, getShapeBounds: pen takes the extent of its points
    (falling back to the stored x, y with zero size when there are no
    points), line and arrow take the box spanning start and end, every
    other variant returns its stored box. -/
def getShapeBounds (s : Shape) : BoundingBox :=
  match s.kind with
  | .pen [] => { x := s.x, y := s.y, width := 0, height := 0 }
  | .pen (p :: ps) =>
      { x := listMin ((p :: ps).map Point.x)
        y := listMin ((p :: ps).map Point.y)
        width := listMax ((p :: ps).map Point.x) - listMin ((p :: ps).map Point.x)
        height := listMax ((p :: ps).map Point.y) - listMin ((p :: ps).map Point.y) }
  | .line endX endY | .arrow endX endY =>
      { x := min s.x endX
        y := min s.y endY
        width := max s.x endX - min s.x endX
        height := max s.y endY - min s.y endY }
  | _ => { x := s.x, y := s.y, width := s.width, height := s.height }

/-- shapeUtils.ts, moveShape: shift x and y; pen also shifts every point,
    line and arrow also shift their endpoint. -/
def moveShape (s : Shape) (deltaX deltaY : ℚ) : Shape :=
  match s.kind with
  | .pen points =>
      { s with x := s.x + deltaX, y := s.y + deltaY
               kind := .pen (points.map fun p => { x := p.x + deltaX, y := p.y + deltaY }) }
  | .line endX endY =>
      { s with x := s.x + deltaX, y := s.y + deltaY
               kind := .line (endX + deltaX) (endY + deltaY) }
  | .arrow endX endY =>
      { s with x := s.x + deltaX, y := s.y + deltaY
               kind := .arrow (endX + deltaX) (endY + deltaY) }
  | .rectangle | .circle | .text _ _ _ =>
      { s with x := s.x + deltaX, y := s.y + deltaY }

/-- shapeUtils.ts, resizeShape: scale factors are newBounds dims over the
    old bounds dims floored at 0.1; pen re-maps every point from the old
    bounds origin, line and arrow re-map both endpoints, box shapes just
    take the new box. -/
def resizeShape (s : Shape) (newBounds : BoundingBox) : Shape :=
  let oldBounds := getShapeBounds s
  let scaleX := newBounds.width / max oldBounds.width (1/10)
  let scaleY := newBounds.height / max oldBounds.height (1/10)
  match s.kind with
  | .pen points =>
      { s with x := newBounds.x, y := newBounds.y
               width := newBounds.width, height := newBounds.height
               kind := .pen (points.map fun p =>
                 { x := newBounds.x + (p.x - oldBounds.x) * scaleX
                   y := newBounds.y + (p.y - oldBounds.y) * scaleY }) }
  | .line endX endY =>
      { s with x := newBounds.x + (s.x - oldBounds.x) * scaleX
               y := newBounds.y + (s.y - oldBounds.y) * scaleY
               width := newBounds.width, height := newBounds.height
               kind := .line (newBounds.x + (endX - oldBounds.x) * scaleX)
                             (newBounds.y + (endY - oldBounds.y) * scaleY) }
  | .arrow endX endY =>
      { s with x := newBounds.x + (s.x - oldBounds.x) * scaleX
               y := newBounds.y + (s.y - oldBounds.y) * scaleY
               width := newBounds.width, height := newBounds.height
               kind := .arrow (newBounds.x + (endX - oldBounds.x) * scaleX)
                              (newBounds.y + (endY - oldBounds.y) * scaleY) }
  | .rectangle | .circle | .text _ _ _ =>
      { s with x := newBounds.x, y := newBounds.y
               width := newBounds.width, height := newBounds.height }

/-- shapeUtils.ts, rotateShape: pure field replacement. -/
def rotateShape (s : Shape) (rotation : ℚ) : Shape :=
  { s with rotation := some rotation }

/-- Canvas.tsx, screenToCanvas: inverse viewport transform. -/
def screenToCanvas (vp : ViewportState) (p : Point) : Point :=
  { x := (p.x - vp.offsetX) / vp.zoom
    y := (p.y - vp.offsetY) / vp.zoom }

/-- Canvas.tsx, canvasToScreen: forward viewport transform. -/
def canvasToScreen (vp : ViewportState) (p : Point) : Point :=
  { x := p.x * vp.zoom + vp.offsetX
    y := p.y * vp.zoom + vp.offsetY }

/-- useCanvas.ts, panViewport: add the delta to the viewport offset
    (through setViewport, which merges the partial update and calls
    replacePresent). -/
def panViewport (st : CanvasState) (deltaX deltaY : ℚ) : CanvasState :=
  { st with viewport := { st.viewport with
      offsetX := st.viewport.offsetX + deltaX
      offsetY := st.viewport.offsetY + deltaY } }

/-- useCanvas.ts, zoomViewport: the new zoom is clamped to [0.1, 5]; with
    an anchor (centerX and centerY both given) the offset is rescaled so
    the anchored point stays fixed; without an anchor only zoom changes. -/
def zoomViewport (st : CanvasState) (zoomDelta : ℚ) (center : Option Point) : CanvasState :=
  let newZoom := max (1/10) (min 5 (st.viewport.zoom + zoomDelta))
  match center with
  | some c =>
      { st with viewport :=
          { offsetX := c.x - (c.x - st.viewport.offsetX) * (newZoom / st.viewport.zoom)
            offsetY := c.y - (c.y - st.viewport.offsetY) * (newZoom / st.viewport.zoom)
            zoom := newZoom } }
  | none =>
      { st with viewport := { st.viewport with zoom := newZoom } }

/-- A sequence of zoomViewport steps, applied left to right. -/
def applyZoomSteps (st : CanvasState) (steps : List (ℚ × Option Point)) : CanvasState :=
  steps.foldl (fun s step => zoomViewport s step.1 step.2) st

/-- A vertical line segment from the origin to the point at 0, 10: its
    bounding box has width 0. -/
def verticalLineShape : Shape :=
  { id := "l1", x := 0, y := 0, width := 0, height := 0
    strokeColor := "#ffffff", fillColor := "transparent"
    strokeWidth := 2, roughness := 0
    kind := .line 0 10 }

/-- A diagonal line segment from the origin to the point at 3, 4. -/
def diagonalLineShape : Shape :=
  { id := "l2", x := 0, y := 0, width := 3, height := 4
    strokeColor := "#ffffff", fillColor := "transparent"
    strokeWidth := 2, roughness := 0
    kind := .line 3 4 }

/-- The unit box at the origin. -/
def unitTargetBox : BoundingBox := { x := 0, y := 0, width := 1, height := 1 }

/-- A concrete target box. -/
def demoTargetBox : BoundingBox := { x := 5, y := 6, width := 7, height := 8 }

/-- shapeUtils.ts, isPointInShape: the shape's bounds expanded by 5 units
    of padding; a shape with a truthy (present and nonzero) rotation first
    rotates the test point by minus the rotation about the centre (the
    stored-box centre, overridden to the bounds centre for line, arrow and
    pen).  The cosine and sine come from the host's mathematical library;
    they enter here as the parameters cosFn and sinFn, applied to the
    negated rotation exactly as in the source. -/
def isPointInShape (cosFn sinFn : ℚ → ℚ) (point : Point) (s : Shape) : Bool :=
  let bounds := getShapeBounds s
  let padding : ℚ := 5
  let rot := s.rotation.getD 0
  if rot ≠ 0 then
    let center : Point :=
      match s.kind with
      | .line _ _ | .arrow _ _ | .pen _ =>
          { x := bounds.x + bounds.width / 2, y := bounds.y + bounds.height / 2 }
      | _ => { x := s.x + s.width / 2, y := s.y + s.height / 2 }
    let c := cosFn (-rot)
    let sn := sinFn (-rot)
    let dx := point.x - center.x
    let dy := point.y - center.y
    let rx := center.x + (dx * c - dy * sn)
    let ry := center.y + (dx * sn + dy * c)
    decide (bounds.x - padding ≤ rx ∧ rx ≤ bounds.x + bounds.width + padding
      ∧ bounds.y - padding ≤ ry ∧ ry ≤ bounds.y + bounds.height + padding)
  else
    decide (bounds.x - padding ≤ point.x ∧ point.x ≤ bounds.x + bounds.width + padding
      ∧ bounds.y - padding ≤ point.y ∧ point.y ≤ bounds.y + bounds.height + padding)

/-- shapeUtils.ts, getShapeAtPoint: scan the list from its end (the top of
    the natural z-order) and return the first hit. -/
def getShapeAtPoint (cosFn sinFn : ℚ → ℚ) (point : Point) (shapes : List Shape) :
    Option Shape :=
  shapes.reverse.find? (isPointInShape cosFn sinFn point)

/-- Canvas.tsx, the textInput useState record. -/
structure TextInputState where
  x : ℚ
  y : ℚ
  visible : Bool
deriving DecidableEq

/-- Canvas.tsx component-local interaction state together with the history
    it drives.  App.tsx wires the component's onCanvasStateChange callback
    to useCanvas.updateCanvasState, which calls pushToHistory; onPan is
    panViewport and onZoom is zoomViewport, both of which run through
    setViewport and replacePresent.  The canvasState the component reads
    is the history's present snapshot. -/
structure InteractionState where
  hist : HistoryState
  isDrawing : Bool
  isDragging : Bool
  isPanning : Bool
  dragStart : Option Point
  panStart : Option Point
  currentShape : Option Shape
  textInput : TextInputState
deriving DecidableEq

/-- Canvas.tsx, createShape: a zero-size shape seeded at the start point
    with the current style defaults; pen starts with one point, line and
    arrow with a zero-length segment, text with an empty string.  The
    select tool never reaches this function (the select branch of
    handleMouseDown returns first); its fall-through is modelled as the
    bare base shape. -/
def createShape (st : CanvasState) (freshId : String) (startPoint : Point)
    (tool : Tool) : Shape :=
  let base : Shape :=
    { id := freshId, x := startPoint.x, y := startPoint.y, width := 0, height := 0
      strokeColor := st.strokeColor, fillColor := st.fillColor
      strokeWidth := st.strokeWidth, roughness := st.roughness
      kind := .rectangle }
  match tool with
  | .pen => { base with kind := .pen [startPoint] }
  | .line => { base with kind := .line startPoint.x startPoint.y }
  | .arrow => { base with kind := .arrow startPoint.x startPoint.y }
  | .text => { base with kind := .text "" st.fontSize st.fontFamily }
  | .circle => { base with kind := .circle }
  | _ => base

/-- Canvas.tsx, handleMouseDown, with the App.tsx wiring: middle button or
    ctrl-click starts panning; the select tool hit-tests at the canvas
    point and, on a hit, marks exactly the clicked shape selected, sets
    selectedShapeId and hands the snapshot to onCanvasStateChange — which
    is updateCanvasState, hence pushToHistory — then enters dragging with
    the canvas point as anchor; on a miss it enters panning and pushes the
    deselected snapshot; the text tool records a pending anchor; a drawing
    tool seeds a new held shape. -/
def handleMouseDown (cosFn sinFn : ℚ → ℚ) (freshId : String)
    (i : InteractionState) (screenPoint : Point) (button : Nat) (ctrlKey : Bool) :
    InteractionState :=
  let st := i.hist.present
  let canvasPoint := screenToCanvas st.viewport screenPoint
  if button == 1 || (button == 0 && ctrlKey) then
    { i with isPanning := true, panStart := some screenPoint }
  else
    match st.currentTool with
    | .select =>
        match getShapeAtPoint cosFn sinFn canvasPoint st.shapes with
        | some clicked =>
            { i with
              hist := pushToHistory i.hist { st with
                shapes := st.shapes.map fun s =>
                  { s with selected := some (s.id == clicked.id) }
                selectedShapeId := some clicked.id }
              isDragging := true
              dragStart := some canvasPoint }
        | none =>
            { i with
              hist := pushToHistory i.hist { st with
                shapes := st.shapes.map fun s => { s with selected := some false }
                selectedShapeId := none }
              isPanning := true
              panStart := some screenPoint }
    | .text =>
        { i with textInput := { x := canvasPoint.x, y := canvasPoint.y, visible := true } }
    | tool =>
        { i with currentShape := some (createShape st freshId canvasPoint tool)
                 isDrawing := true }

/-- Canvas.tsx, handleMouseMove, with the App.tsx wiring: panning adds the
    screen delta to the offset through onPan = panViewport (a
    replacePresent); dragging translates the selected shape by the
    canvas-space delta since the last sample and hands the snapshot to
    onCanvasStateChange — which is pushToHistory — then advances the
    anchor; drawing extends the held shape without touching the
    document. -/
def handleMouseMove (i : InteractionState) (screenPoint : Point) : InteractionState :=
  let st := i.hist.present
  let canvasPoint := screenToCanvas st.viewport screenPoint
  match i.isPanning, i.panStart with
  | true, some ps =>
      { i with
        hist := replacePresent i.hist
          (panViewport st (screenPoint.x - ps.x) (screenPoint.y - ps.y))
        panStart := some screenPoint }
  | _, _ =>
      match i.isDragging, i.dragStart, st.selectedShapeId with
      | true, some ds, some sid =>
          { i with
            hist := pushToHistory i.hist { st with
              shapes := st.shapes.map fun s =>
                if s.id == sid then
                  moveShape s (canvasPoint.x - ds.x) (canvasPoint.y - ds.y)
                else s }
            dragStart := some canvasPoint }
      | _, _, _ =>
          match i.isDrawing, i.currentShape with
          | true, some cs =>
              let updated :=
                match cs.kind with
                | .pen points => { cs with kind := .pen (points ++ [canvasPoint]) }
                | .rectangle => { cs with width := canvasPoint.x - cs.x
                                          height := canvasPoint.y - cs.y }
                | .circle => { cs with width := canvasPoint.x - cs.x
                                       height := canvasPoint.y - cs.y }
                | .line _ _ => { cs with kind := .line canvasPoint.x canvasPoint.y }
                | .arrow _ _ => { cs with kind := .arrow canvasPoint.x canvasPoint.y }
                | _ => cs
              { i with currentShape := some updated }
          | _, _ => i

/-- Canvas.tsx, handleMouseUp: a finished drawing appends the held shape
    and hands the snapshot to onCanvasStateChange (pushToHistory); in
    every case the transient flags and anchors are cleared.  A drag or pan
    release mutates nothing further. -/
def handleMouseUp (i : InteractionState) : InteractionState :=
  let afterDraw :=
    match i.isDrawing, i.currentShape with
    | true, some cs =>
        { i with
          hist := pushToHistory i.hist
            { i.hist.present with shapes := i.hist.present.shapes ++ [cs] }
          currentShape := none }
    | _, _ => i
  { afterDraw with isDrawing := false, isDragging := false, isPanning := false
                   dragStart := none, panStart := none }

/-- The zIndex of a shape as the source reads it: the stored zIndex or 0. -/
def zIndexOrZero (s : Shape) : ℚ := s.zIndex.getD 0

/-- JavaScript String.prototype.trim: whitespace stripped from both ends,
    modelled structurally over the character list. -/
def jsTrim (s : String) : String :=
  ⟨((s.data.dropWhile Char.isWhitespace).reverse.dropWhile Char.isWhitespace).reverse⟩

/-- Canvas.tsx, handleTextSubmit, with the App.tsx wiring: text whose trim
    is non-blank appends one text shape at the pending anchor — width text
    length times fontSize times 0.6, height fontSize, zIndex one more than
    the largest existing zIndex read with default 0 (plain 0 when the
    document is empty) — and hands the snapshot to onCanvasStateChange
    (pushToHistory); blank text changes nothing.  The pending anchor is
    reset in every case. -/
def handleTextSubmit (freshId : String) (i : InteractionState) (txt : String) :
    InteractionState :=
  let st := i.hist.present
  let afterAdd :=
    if jsTrim txt ≠ "" then
      { i with
        hist := pushToHistory i.hist { st with
          shapes := st.shapes ++
            [{ id := freshId
               x := i.textInput.x, y := i.textInput.y
               width := (txt.length : ℚ) * st.fontSize * (6/10)
               height := st.fontSize
               strokeColor := st.strokeColor, fillColor := st.fillColor
               strokeWidth := st.strokeWidth, roughness := st.roughness
               zIndex := some (if st.shapes.length > 0
                 then listMax (st.shapes.map zIndexOrZero) + 1 else 0)
               kind := .text txt st.fontSize st.fontFamily }] } }
    else i
  { afterAdd with textInput := { x := 0, y := 0, visible := false } }

/-- Modelled from the spec wording of the text zIndex rule, for comparison
    with the code: one plus the maximum of the existing zIndices, the
    maximum taken to be minus one when there are no shapes. -/
def specTextZIndex (shapes : List Shape) : ℚ :=
  1 + (if shapes.isEmpty then -1 else listMax (shapes.map zIndexOrZero))

/-- useCanvas.ts, duplicateSelectedShape: when a selected shape exists,
    append a copy carrying a fresh id, offset by 20 in x and y, with
    selected set to false; deselect every shape in the original list,
    point selectedShapeId at the copy, and pushToHistory. -/
def duplicateSelectedShape (h : HistoryState) (freshId : String) : HistoryState :=
  match h.present.selectedShapeId with
  | none => h
  | some sid =>
      match h.present.shapes.find? (fun s => s.id == sid) with
      | none => h
      | some sel =>
          pushToHistory h { h.present with
            shapes := (h.present.shapes.map fun s => { s with selected := some false })
              ++ [{ sel with id := freshId, x := sel.x + 20, y := sel.y + 20, selected := some false }]
            selectedShapeId := some freshId }

/-- The fields of a parsed import document as the import path reads them:
    the code inspects only the viewport key (which may be absent) and
    passes every other field through untouched.  Input whose text fails
    JSON.parse is modelled as none. -/
structure ImportedDoc where
  shapes : List Shape
  selectedShapeId : Option String
  currentTool : Tool
  strokeColor : String
  fillColor : String
  strokeWidth : ℚ
  roughness : ℚ
  fontSize : ℚ
  fontFamily : String
  viewport : Option ViewportState
deriving DecidableEq

/-- exportUtils.ts, importFromJSON: a parse failure rejects with the error
    message Invalid JSON file; otherwise, when the parsed object has no
    viewport, the default viewport of offset 0, 0 and zoom 1 is installed,
    and the object is resolved with no further validation. -/
def importFromJSON : Option ImportedDoc → Except String CanvasState
  | none => .error "Invalid JSON file"
  | some d =>
      .ok { shapes := d.shapes
            selectedShapeId := d.selectedShapeId
            currentTool := d.currentTool
            strokeColor := d.strokeColor
            fillColor := d.fillColor
            strokeWidth := d.strokeWidth
            roughness := d.roughness
            fontSize := d.fontSize
            fontFamily := d.fontFamily
            viewport := d.viewport.getD { offsetX := 0, offsetY := 0, zoom := 1 } }

/-- A rectangle at 10, 10 of size 100 by 50. -/
def demoRectShape : Shape :=
  { id := "a", x := 10, y := 10, width := 100, height := 50
    strokeColor := "#ffffff", fillColor := "transparent"
    strokeWidth := 2, roughness := 0
    kind := .rectangle }

/-- A document holding the demo rectangle under the select tool. -/
def demoSelectState : CanvasState :=
  { initialCanvasState with currentTool := .select, shapes := [demoRectShape] }

/-- The interaction state at rest over the demo document. -/
def demoIdle : InteractionState :=
  { hist := initialHistory demoSelectState
    isDrawing := false, isDragging := false, isPanning := false
    dragStart := none, panStart := none, currentShape := none
    textInput := { x := 0, y := 0, visible := false } }

/-- A trivial stand-in for the trigonometric functions; the demo gestures
    touch no rotated shape, so its value is never consulted. -/
def flatTrig : ℚ → ℚ := fun _ => 0

/-- The state after the demo pointer-down: select tool, click at 20, 20,
    which hits the rectangle. -/
def demoDragging : InteractionState :=
  handleMouseDown flatTrig flatTrig "fresh" demoIdle { x := 20, y := 20 } 0 false

/-- The full demo drag gesture: pointer-down at 20, 20, one move sample at
    25, 25, release. -/
def demoDragGesture : InteractionState :=
  handleMouseUp (handleMouseMove demoDragging { x := 25, y := 25 })

/-- The demo document with the rectangle selected, wrapped in a fresh
    history. -/
def demoSelectedHistory : HistoryState :=
  initialHistory { demoSelectState with
    shapes := [{ demoRectShape with selected := some true }]
    selectedShapeId := some "a" }

/-- A parsed import document that lacks the viewport key. -/
def demoImportDoc : ImportedDoc :=
  { shapes := [demoRectShape], selectedShapeId := none, currentTool := .pen
    strokeColor := "#ffffff", fillColor := "transparent", strokeWidth := 2
    roughness := 0, fontSize := 16, fontFamily := "Arial, sans-serif"
    viewport := none }

end LocalCanvas

namespace LocalCanvas

lemma pushToHistory_length_le (h : HistoryState) (s : CanvasState)
    (hle : h.past.length ≤ MAX_HISTORY_SIZE) :
    (pushToHistory h s).past.length ≤ MAX_HISTORY_SIZE := by
  unfold pushToHistory
  dsimp only
  split
  · simp only [List.length_drop, List.length_append, List.length_singleton]
    omega
  · next hc =>
      simp only [List.length_append, List.length_singleton] at hc ⊢
      omega

lemma applyCommits_length_le (l : List CanvasState) (h : HistoryState)
    (hle : h.past.length ≤ MAX_HISTORY_SIZE) :
    (applyCommits h l).past.length ≤ MAX_HISTORY_SIZE := by
  induction l generalizing h with
  | nil => exact hle
  | cons s rest ih =>
      exact ih (pushToHistory h s) (pushToHistory_length_le h s hle)

/-- C3: starting from the initial history (empty past), after every
    sequence of pushToHistory calls the past stack has length at most 50;
    and once the past is at capacity (length 50), a push evicts exactly the
    oldest entry: the new past is the old past without its front element,
    with the old present appended (FIFO eviction). -/
theorem history_capacity_fifo :
    (∀ (c : CanvasState) (l : List CanvasState),
      (applyCommits (initialHistory c) l).past.length ≤ 50)
    ∧ (∀ (h : HistoryState) (s : CanvasState), h.past.length = 50 →
      (pushToHistory h s).past = h.past.drop 1 ++ [h.present]) := by
  constructor
  · intro c l
    exact applyCommits_length_le l (initialHistory c) (by simp [initialHistory, MAX_HISTORY_SIZE])
  · intro h s hlen
    unfold pushToHistory
    have hgt : (h.past ++ [h.present]).length > MAX_HISTORY_SIZE := by
      simp [List.length_append, hlen, MAX_HISTORY_SIZE]
    simp only [if_pos hgt]
    cases hp : h.past with
    | nil => simp [hp] at hlen
    | cons a t => simp [hp]

/-- Witness for history_capacity_fifo at a concrete history whose past
    holds exactly 50 snapshots. -/
theorem history_capacity_fifo_witness :
    (pushToHistory
        { past := List.replicate 50 initialCanvasState
          present := initialCanvasState
          future := [] } initialCanvasState).past
      = (List.replicate 50 initialCanvasState).drop 1 ++ [initialCanvasState] :=
  history_capacity_fifo.2
    { past := List.replicate 50 initialCanvasState
      present := initialCanvasState
      future := [] } initialCanvasState (by simp)

/-- C5: for any history with non-empty past, undo followed by redo restores
    the entire pre-undo history state (in particular the present snapshot);
    undo on an empty past and redo on an empty future are no-ops that
    return the current present. -/
theorem undo_redo_round_trip :
    (∀ h : HistoryState, h.past ≠ [] → (redo (undo h).1).1 = h)
    ∧ (∀ h : HistoryState, h.past = [] → undo h = (h, h.present))
    ∧ (∀ h : HistoryState, h.future = [] → redo h = (h, h.present)) := by
  refine ⟨?_, ?_, ?_⟩
  · intro h hne
    rcases h.past.eq_nil_or_concat' with hnil | ⟨l, a, hla⟩
    · exact absurd hnil hne
    unfold undo
    rw [hla]
    simp only [List.getLast?_concat]
    unfold redo
    simp only [List.dropLast_concat]
    cases h
    simp_all
  · intro h hp
    unfold undo
    simp [hp]
  · intro h hf
    unfold redo
    simp [hf]

/-- Witness for undo_redo_round_trip at a concrete two-entry history. -/
theorem undo_redo_round_trip_witness :
    (redo (undo { past := [initialCanvasState]
                  present := { initialCanvasState with strokeWidth := 3 }
                  future := [] }).1).1
      = { past := [initialCanvasState]
          present := { initialCanvasState with strokeWidth := 3 }
          future := [] }
    ∧ undo { past := [], present := initialCanvasState, future := [] }
      = ({ past := [], present := initialCanvasState, future := [] }, initialCanvasState)
    ∧ redo { past := [initialCanvasState], present := initialCanvasState, future := [] }
      = ({ past := [initialCanvasState], present := initialCanvasState, future := [] },
          initialCanvasState) :=
  ⟨undo_redo_round_trip.1 _ (by simp),
   undo_redo_round_trip.2.1 _ rfl,
   undo_redo_round_trip.2.2 _ rfl⟩

/-- C4: a zoomViewport step from any state, with any delta and any
    optional anchor, leaves the viewport zoom in [0.1, 5]; consequently
    after each step of any sequence of zoom operations the zoom is in
    range (the clamp sits inside zoomViewport itself, the point of
    mutation). -/
theorem zoom_always_clamped :
    (∀ (st : CanvasState) (delta : ℚ) (center : Option Point),
      1/10 ≤ (zoomViewport st delta center).viewport.zoom
      ∧ (zoomViewport st delta center).viewport.zoom ≤ 5)
    ∧ (∀ (st : CanvasState) (steps : List (ℚ × Option Point)), steps ≠ [] →
      1/10 ≤ (applyZoomSteps st steps).viewport.zoom
      ∧ (applyZoomSteps st steps).viewport.zoom ≤ 5) := by
  have single : ∀ (st : CanvasState) (delta : ℚ) (center : Option Point),
      1/10 ≤ (zoomViewport st delta center).viewport.zoom
      ∧ (zoomViewport st delta center).viewport.zoom ≤ 5 := by
    intro st delta center
    unfold zoomViewport
    cases center <;>
      exact ⟨le_max_left _ _, max_le (by norm_num) (min_le_left _ _)⟩
  refine ⟨single, ?_⟩
  intro st steps hne
  rcases steps.eq_nil_or_concat' with hnil | ⟨l, step, hl⟩
  · exact absurd hnil hne
  · rw [hl]
    unfold applyZoomSteps
    rw [List.foldl_append]
    simpa using single (applyZoomSteps st l) step.1 step.2

/-- Witness for the sequence part of zoom_always_clamped at a concrete
    one-step sequence. -/
theorem zoom_always_clamped_witness :
    1/10 ≤ (applyZoomSteps initialCanvasState [(100, none)]).viewport.zoom
    ∧ (applyZoomSteps initialCanvasState [(100, none)]).viewport.zoom ≤ 5 :=
  zoom_always_clamped.2 initialCanvasState [(100, none)] (by simp)

/-- C6: when the clamped zoom does not hit the boundary, the anchored
    zoom step stores zoom plus delta, rescales the offset componentwise by
    the formula of the claim, and the document point that the old viewport
    mapped to the anchor is mapped back to the anchor by the new viewport;
    a step with no anchor changes only the zoom. -/
theorem zoom_anchor_invariant (st : CanvasState) (A : Point) (delta : ℚ)
    (hz : st.viewport.zoom ≠ 0)
    (hlo : 1/10 ≤ st.viewport.zoom + delta)
    (hhi : st.viewport.zoom + delta ≤ 5) :
    (zoomViewport st delta (some A)).viewport.zoom = st.viewport.zoom + delta
    ∧ (zoomViewport st delta (some A)).viewport.offsetX
        = A.x - (A.x - st.viewport.offsetX) * ((st.viewport.zoom + delta) / st.viewport.zoom)
    ∧ (zoomViewport st delta (some A)).viewport.offsetY
        = A.y - (A.y - st.viewport.offsetY) * ((st.viewport.zoom + delta) / st.viewport.zoom)
    ∧ canvasToScreen (zoomViewport st delta (some A)).viewport
        (screenToCanvas st.viewport A) = A
    ∧ (zoomViewport st delta none).viewport.offsetX = st.viewport.offsetX
    ∧ (zoomViewport st delta none).viewport.offsetY = st.viewport.offsetY
    ∧ (zoomViewport st delta none).viewport.zoom = st.viewport.zoom + delta := by
  have hclamp : max (1/10 : ℚ) (min 5 (st.viewport.zoom + delta))
      = st.viewport.zoom + delta := by
    rw [min_eq_right hhi, max_eq_right hlo]
  unfold zoomViewport canvasToScreen screenToCanvas
  dsimp only
  rw [hclamp]
  refine ⟨rfl, rfl, rfl, ?_, rfl, rfl, rfl⟩
  ext
  · dsimp only
    field_simp
  · dsimp only
    field_simp

/-- Witness for zoom_anchor_invariant: zoom 1 viewport, anchor at 10, 10,
    delta one half. -/
theorem zoom_anchor_invariant_witness :
    canvasToScreen (zoomViewport initialCanvasState (1/2)
        (some { x := 10, y := 10 })).viewport
      (screenToCanvas initialCanvasState.viewport { x := 10, y := 10 })
      = { x := 10, y := 10 } :=
  (zoom_anchor_invariant initialCanvasState { x := 10, y := 10 } (1/2)
    (by norm_num [initialCanvasState])
    (by norm_num [initialCanvasState])
    (by norm_num [initialCanvasState])).2.2.2.1

/-- C10: for any viewport with nonzero zoom the two coordinate transforms
    are mutual inverses, exactly over the rationals. -/
theorem viewport_transforms_inverse (vp : ViewportState) (p : Point)
    (hz : vp.zoom ≠ 0) :
    canvasToScreen vp (screenToCanvas vp p) = p
    ∧ screenToCanvas vp (canvasToScreen vp p) = p := by
  unfold canvasToScreen screenToCanvas
  constructor
  · ext
    · dsimp only; field_simp
    · dsimp only; field_simp
  · ext
    · dsimp only; field_simp
    · dsimp only; field_simp

/-- Witness for viewport_transforms_inverse at a concrete viewport. -/
theorem viewport_transforms_inverse_witness :
    canvasToScreen { offsetX := 3, offsetY := 4, zoom := 2 }
        (screenToCanvas { offsetX := 3, offsetY := 4, zoom := 2 } { x := 7, y := 9 })
      = { x := 7, y := 9 }
    ∧ screenToCanvas { offsetX := 3, offsetY := 4, zoom := 2 }
        (canvasToScreen { offsetX := 3, offsetY := 4, zoom := 2 } { x := 7, y := 9 })
      = { x := 7, y := 9 } :=
  viewport_transforms_inverse { offsetX := 3, offsetY := 4, zoom := 2 }
    { x := 7, y := 9 } (by norm_num)

lemma min_affine (a m s u v : ℚ) (hs : 0 ≤ s) :
    min (a + (u - m) * s) (a + (v - m) * s) = a + (min u v - m) * s := by
  rcases le_total u v with h | h
  · rw [min_eq_left h, min_eq_left
      (add_le_add_left (mul_le_mul_of_nonneg_right (sub_le_sub_right h m) hs) a)]
  · rw [min_eq_right h, min_eq_right
      (add_le_add_left (mul_le_mul_of_nonneg_right (sub_le_sub_right h m) hs) a)]

lemma max_affine (a m s u v : ℚ) (hs : 0 ≤ s) :
    max (a + (u - m) * s) (a + (v - m) * s) = a + (max u v - m) * s := by
  rcases le_total u v with h | h
  · rw [max_eq_right h, max_eq_right
      (add_le_add_left (mul_le_mul_of_nonneg_right (sub_le_sub_right h m) hs) a)]
  · rw [max_eq_left h, max_eq_left
      (add_le_add_left (mul_le_mul_of_nonneg_right (sub_le_sub_right h m) hs) a)]

lemma foldl_min_map_affine (a m s : ℚ) (hs : 0 ≤ s) (xs : List ℚ) (x : ℚ) :
    (xs.map fun t => a + (t - m) * s).foldl min (a + (x - m) * s)
      = a + (xs.foldl min x - m) * s := by
  induction xs generalizing x with
  | nil => rfl
  | cons y ys ih =>
      simp only [List.map_cons, List.foldl_cons]
      rw [min_affine a m s x y hs]
      exact ih (min x y)

lemma foldl_max_map_affine (a m s : ℚ) (hs : 0 ≤ s) (xs : List ℚ) (x : ℚ) :
    (xs.map fun t => a + (t - m) * s).foldl max (a + (x - m) * s)
      = a + (xs.foldl max x - m) * s := by
  induction xs generalizing x with
  | nil => rfl
  | cons y ys ih =>
      simp only [List.map_cons, List.foldl_cons]
      rw [max_affine a m s x y hs]
      exact ih (max x y)

lemma listMin_map_affine (a m s : ℚ) (hs : 0 ≤ s) (l : List ℚ) (hl : l ≠ []) :
    listMin (l.map fun t => a + (t - m) * s)
      = a + (listMin l - m) * s := by
  cases l with
  | nil => exact absurd rfl hl
  | cons x xs =>
      simp only [List.map_cons, listMin]
      exact foldl_min_map_affine a m s hs xs x

lemma listMax_map_affine (a m s : ℚ) (hs : 0 ≤ s) (l : List ℚ) (hl : l ≠ []) :
    listMax (l.map fun t => a + (t - m) * s)
      = a + (listMax l - m) * s := by
  cases l with
  | nil => exact absurd rfl hl
  | cons x xs =>
      simp only [List.map_cons, listMax]
      exact foldl_max_map_affine a m s hs xs x

lemma map_x_of_affine_points (ax mx sx ay my sy : ℚ) (l : List Point) :
    (l.map fun q : Point =>
        ({ x := ax + (q.x - mx) * sx, y := ay + (q.y - my) * sy } : Point)).map Point.x
      = (l.map Point.x).map fun t => ax + (t - mx) * sx := by
  simp [List.map_map]

lemma map_y_of_affine_points (ax mx sx ay my sy : ℚ) (l : List Point) :
    (l.map fun q : Point =>
        ({ x := ax + (q.x - mx) * sx, y := ay + (q.y - my) * sy } : Point)).map Point.y
      = (l.map Point.y).map fun t => ay + (t - my) * sy := by
  simp [List.map_map]

/-- Bounds of a shape whose kind is a non-empty pen, spelled out. -/
lemma getShapeBounds_of_pen (s : Shape) (p : Point) (ps : List Point)
    (hk : s.kind = .pen (p :: ps)) :
    getShapeBounds s =
      { x := listMin ((p :: ps).map Point.x)
        y := listMin ((p :: ps).map Point.y)
        width := listMax ((p :: ps).map Point.x) - listMin ((p :: ps).map Point.x)
        height := listMax ((p :: ps).map Point.y) - listMin ((p :: ps).map Point.y) } := by
  unfold getShapeBounds
  rw [hk]

/-- The resize step on a pen shape, spelled out. -/
lemma resizeShape_of_pen (s : Shape) (l : List Point) (hk : s.kind = .pen l)
    (b : BoundingBox) :
    resizeShape s b =
      { s with x := b.x, y := b.y, width := b.width, height := b.height
               kind := .pen (l.map fun p =>
                 { x := b.x + (p.x - (getShapeBounds s).x)
                          * (b.width / max (getShapeBounds s).width (1/10))
                   y := b.y + (p.y - (getShapeBounds s).y)
                          * (b.height / max (getShapeBounds s).height (1/10)) }) } := by
  unfold resizeShape
  rw [hk]

/-- Bounds of a record update that installs a non-empty pen kind. -/
lemma getShapeBounds_update_pen (s : Shape) (nx ny nw nh : ℚ) (q : Point)
    (qs : List Point) :
    getShapeBounds { s with x := nx, y := ny, width := nw, height := nh
                            kind := .pen (q :: qs) } =
      { x := listMin ((q :: qs).map Point.x)
        y := listMin ((q :: qs).map Point.y)
        width := listMax ((q :: qs).map Point.x) - listMin ((q :: qs).map Point.x)
        height := listMax ((q :: qs).map Point.y) - listMin ((q :: qs).map Point.y) } := rfl

lemma listMin_cons_map_affine_x (a m s : ℚ) (hs : 0 ≤ s) (p : Point) (ps : List Point) :
    listMin ((a + (p.x - m) * s) :: ps.map fun q : Point => a + (q.x - m) * s)
      = a + (listMin (p.x :: ps.map Point.x) - m) * s := by
  have hz : (a + (p.x - m) * s) :: (ps.map fun q : Point => a + (q.x - m) * s)
      = (p.x :: ps.map Point.x).map fun t => a + (t - m) * s := by
    simp [List.map_map]
  rw [hz, listMin_map_affine _ _ _ hs _ (by simp)]

lemma listMax_cons_map_affine_x (a m s : ℚ) (hs : 0 ≤ s) (p : Point) (ps : List Point) :
    listMax ((a + (p.x - m) * s) :: ps.map fun q : Point => a + (q.x - m) * s)
      = a + (listMax (p.x :: ps.map Point.x) - m) * s := by
  have hz : (a + (p.x - m) * s) :: (ps.map fun q : Point => a + (q.x - m) * s)
      = (p.x :: ps.map Point.x).map fun t => a + (t - m) * s := by
    simp [List.map_map]
  rw [hz, listMax_map_affine _ _ _ hs _ (by simp)]

lemma listMin_cons_map_affine_y (a m s : ℚ) (hs : 0 ≤ s) (p : Point) (ps : List Point) :
    listMin ((a + (p.y - m) * s) :: ps.map fun q : Point => a + (q.y - m) * s)
      = a + (listMin (p.y :: ps.map Point.y) - m) * s := by
  have hz : (a + (p.y - m) * s) :: (ps.map fun q : Point => a + (q.y - m) * s)
      = (p.y :: ps.map Point.y).map fun t => a + (t - m) * s := by
    simp [List.map_map]
  rw [hz, listMin_map_affine _ _ _ hs _ (by simp)]

lemma listMax_cons_map_affine_y (a m s : ℚ) (hs : 0 ≤ s) (p : Point) (ps : List Point) :
    listMax ((a + (p.y - m) * s) :: ps.map fun q : Point => a + (q.y - m) * s)
      = a + (listMax (p.y :: ps.map Point.y) - m) * s := by
  have hz : (a + (p.y - m) * s) :: (ps.map fun q : Point => a + (q.y - m) * s)
      = (p.y :: ps.map Point.y).map fun t => a + (t - m) * s := by
    simp [List.map_map]
  rw [hz, listMax_map_affine _ _ _ hs _ (by simp)]

/-- C2 counterexample: the vertical line from 0, 0 to 0, 10 has bounds of
    width 0; resizing it to the unit box produces a shape whose bounds
    still have width 0, not the requested width 1 — a gap far outside any
    floating-point tolerance — so the round-trip law fails even though the
    target box has positive width and height. -/
theorem resize_bounds_counterexample :
    unitTargetBox.width > 0 ∧ unitTargetBox.height > 0
    ∧ (getShapeBounds (resizeShape verticalLineShape unitTargetBox)).width = 0
    ∧ unitTargetBox.width = 1
    ∧ getShapeBounds (resizeShape verticalLineShape unitTargetBox) ≠ unitTargetBox := by
  have hres : getShapeBounds (resizeShape verticalLineShape unitTargetBox)
      = { x := 0, y := 0, width := 0, height := 1 } := by
    norm_num [resizeShape, getShapeBounds, verticalLineShape, unitTargetBox,
      min_def, max_def]
  refine ⟨by norm_num [unitTargetBox], by norm_num [unitTargetBox],
    by rw [hres], rfl, ?_⟩
  rw [hres]
  intro hco
  have hcw := congrArg BoundingBox.width hco
  norm_num [unitTargetBox] at hcw

/-- C2 amended: getShapeBounds after resizeShape returns exactly the
    requested box (for any target box with positive width and height)
    provided the shape's current bounds have width and height at least
    0.1, the scale-factor floor; thinner or degenerate shapes — empty or
    single-point pens, axis-parallel lines and arrows, sub-0.1 extents —
    are the exception the counterexample exhibits. -/
theorem resize_bounds_round_trip (s : Shape) (b : BoundingBox)
    (hbw : 0 < b.width) (hbh : 0 < b.height)
    (hw : 1/10 ≤ (getShapeBounds s).width)
    (hh : 1/10 ≤ (getShapeBounds s).height) :
    getShapeBounds (resizeShape s b) = b := by
  cases hk : s.kind with
  | pen points =>
      cases points with
      | nil =>
          simp only [getShapeBounds, hk] at hw
          norm_num at hw
      | cons p ps =>
          have hob := getShapeBounds_of_pen s p ps hk
          simp only [hob] at hw hh
          have hwpos : (0:ℚ) < listMax ((p :: ps).map Point.x)
              - listMin ((p :: ps).map Point.x) := lt_of_lt_of_le (by norm_num) hw
          have hhpos : (0:ℚ) < listMax ((p :: ps).map Point.y)
              - listMin ((p :: ps).map Point.y) := lt_of_lt_of_le (by norm_num) hh
          have hsx : (0:ℚ) ≤ b.width / (listMax ((p :: ps).map Point.x)
              - listMin ((p :: ps).map Point.x)) := div_nonneg hbw.le hwpos.le
          have hsy : (0:ℚ) ≤ b.height / (listMax ((p :: ps).map Point.y)
              - listMin ((p :: ps).map Point.y)) := div_nonneg hbh.le hhpos.le
          rw [resizeShape_of_pen s (p :: ps) hk b, List.map_cons,
            getShapeBounds_update_pen]
          simp only [hob, List.map_cons, List.map_map, Function.comp_def]
          simp only [List.map_cons] at hw hh hwpos hhpos hsx hsy
          rw [max_eq_left hw, max_eq_left hh]
          rw [listMin_cons_map_affine_x _ _ _ hsx, listMax_cons_map_affine_x _ _ _ hsx,
            listMin_cons_map_affine_y _ _ _ hsy, listMax_cons_map_affine_y _ _ _ hsy]
          ext
          · ring
          · ring
          · field_simp
          · field_simp
  | rectangle =>
      simp only [resizeShape, getShapeBounds, hk]
  | circle =>
      simp only [resizeShape, getShapeBounds, hk]
  | text c fs ff =>
      simp only [resizeShape, getShapeBounds, hk]
  | line ex ey =>
      simp only [getShapeBounds, hk] at hw hh
      have hwpos : (0:ℚ) < max s.x ex - min s.x ex := lt_of_lt_of_le (by norm_num) hw
      have hhpos : (0:ℚ) < max s.y ey - min s.y ey := lt_of_lt_of_le (by norm_num) hh
      have hsx : (0:ℚ) ≤ b.width / (max s.x ex - min s.x ex) :=
        div_nonneg hbw.le hwpos.le
      have hsy : (0:ℚ) ≤ b.height / (max s.y ey - min s.y ey) :=
        div_nonneg hbh.le hhpos.le
      simp only [resizeShape, getShapeBounds, hk]
      rw [max_eq_left hw, max_eq_left hh]
      rw [min_affine _ _ _ _ _ hsx, max_affine _ _ _ _ _ hsx,
          min_affine _ _ _ _ _ hsy, max_affine _ _ _ _ _ hsy]
      ext
      · ring
      · ring
      · field_simp
      · field_simp
  | arrow ex ey =>
      simp only [getShapeBounds, hk] at hw hh
      have hwpos : (0:ℚ) < max s.x ex - min s.x ex := lt_of_lt_of_le (by norm_num) hw
      have hhpos : (0:ℚ) < max s.y ey - min s.y ey := lt_of_lt_of_le (by norm_num) hh
      have hsx : (0:ℚ) ≤ b.width / (max s.x ex - min s.x ex) :=
        div_nonneg hbw.le hwpos.le
      have hsy : (0:ℚ) ≤ b.height / (max s.y ey - min s.y ey) :=
        div_nonneg hbh.le hhpos.le
      simp only [resizeShape, getShapeBounds, hk]
      rw [max_eq_left hw, max_eq_left hh]
      rw [min_affine _ _ _ _ _ hsx, max_affine _ _ _ _ _ hsx,
          min_affine _ _ _ _ _ hsy, max_affine _ _ _ _ _ hsy]
      ext
      · ring
      · ring
      · field_simp
      · field_simp

/-- Witness for resize_bounds_round_trip: the diagonal line from 0, 0 to
    3, 4 resized to the box at 5, 6 of size 7 by 8. -/
theorem resize_bounds_round_trip_witness :
    getShapeBounds (resizeShape diagonalLineShape demoTargetBox) = demoTargetBox :=
  resize_bounds_round_trip diagonalLineShape demoTargetBox
    (by norm_num [demoTargetBox]) (by norm_num [demoTargetBox])
    (by norm_num [getShapeBounds, diagonalLineShape, min_def, max_def])
    (by norm_num [getShapeBounds, diagonalLineShape, min_def, max_def])

lemma pushToHistory_getLast (h : HistoryState) (s : CanvasState) :
    (pushToHistory h s).past.getLast? = some h.present := by
  unfold pushToHistory
  dsimp only
  split
  · next hgt =>
      cases hp : h.past with
      | nil =>
          rw [hp] at hgt
          simp [MAX_HISTORY_SIZE] at hgt
      | cons a t =>
          simp [List.getLast?_concat]
  · simp [List.getLast?_concat]

/-- C1 counterexample: in the code as wired (onCanvasStateChange is
    updateCanvasState, which is pushToHistory), a drag gesture commits at
    every step — the select-tool pointer-down that hits the rectangle
    pushes one entry and the single move sample pushes another — so the
    past stack ends at length 2 where the claim demands it stay at its
    initial length 0. -/
theorem drag_gesture_pushes_history :
    demoIdle.hist.past.length = 0
    ∧ demoDragging.isDragging = true
    ∧ demoDragGesture.hist.past.length = 2 := by
  refine ⟨rfl, ?_, ?_⟩
  · norm_num [demoDragging, demoIdle, demoSelectState, demoRectShape,
      initialCanvasState, initialHistory, handleMouseDown,
      screenToCanvas, getShapeAtPoint, isPointInShape, getShapeBounds,
      pushToHistory, MAX_HISTORY_SIZE, flatTrig, List.find?]
  · norm_num [demoDragGesture, demoDragging, demoIdle, demoSelectState, demoRectShape,
      initialCanvasState, initialHistory, handleMouseDown, handleMouseMove, handleMouseUp,
      screenToCanvas, getShapeAtPoint, isPointInShape, getShapeBounds, moveShape,
      pushToHistory, replacePresent, panViewport, MAX_HISTORY_SIZE, flatTrig, List.find?]

/-- C1 corrected claim: while a selected shape is being dragged, every
    pointer-move sample hands the translated snapshot to
    updateCanvasState, which is pushToHistory — so with the past below
    capacity each sample appends the pre-move present to the past and
    clears future (a commit, not a replace); pointer-up on its own (when
    not drawing) leaves the history untouched. -/
theorem drag_move_commits (i : InteractionState) (sp ds : Point) (sid : String)
    (hpan : i.isPanning = false)
    (hdrag : i.isDragging = true)
    (hds : i.dragStart = some ds)
    (hsel : i.hist.present.selectedShapeId = some sid)
    (hcap : i.hist.past.length < 50) :
    (handleMouseMove i sp).hist.past = i.hist.past ++ [i.hist.present]
    ∧ (handleMouseMove i sp).hist.future = []
    ∧ (i.isDrawing = false → (handleMouseUp i).hist = i.hist) := by
  have hlen : ¬ (i.hist.past ++ [i.hist.present]).length > MAX_HISTORY_SIZE := by
    simp only [List.length_append, List.length_singleton, MAX_HISTORY_SIZE]
    omega
  have hup : i.isDrawing = false → (handleMouseUp i).hist = i.hist := by
    intro hdraw
    rcases hcs : i.currentShape with _ | cs <;>
      simp only [handleMouseUp, hdraw, hcs]
  rcases hps : i.panStart with _ | ps
  · refine ⟨?_, ?_, hup⟩
    · simp only [handleMouseMove, hpan, hps, hdrag, hds, hsel, pushToHistory]
      rw [if_neg hlen]
    · simp only [handleMouseMove, hpan, hps, hdrag, hds, hsel, pushToHistory]
  · refine ⟨?_, ?_, hup⟩
    · simp only [handleMouseMove, hpan, hps, hdrag, hds, hsel, pushToHistory]
      rw [if_neg hlen]
    · simp only [handleMouseMove, hpan, hps, hdrag, hds, hsel, pushToHistory]

/-- Witness for drag_move_commits at the concrete dragging state reached
    by the demo pointer-down. -/
theorem drag_move_commits_witness :
    (handleMouseMove demoDragging { x := 25, y := 25 }).hist.past
      = demoDragging.hist.past ++ [demoDragging.hist.present]
    ∧ (handleMouseMove demoDragging { x := 25, y := 25 }).hist.future = []
    ∧ (demoDragging.isDrawing = false →
        (handleMouseUp demoDragging).hist = demoDragging.hist) :=
  drag_move_commits demoDragging { x := 25, y := 25 } { x := 20, y := 20 } "a"
    (by norm_num [demoDragging, demoIdle, demoSelectState, demoRectShape,
      initialCanvasState, initialHistory, handleMouseDown, screenToCanvas,
      getShapeAtPoint, isPointInShape, getShapeBounds, pushToHistory,
      MAX_HISTORY_SIZE, flatTrig, List.find?])
    (by norm_num [demoDragging, demoIdle, demoSelectState, demoRectShape,
      initialCanvasState, initialHistory, handleMouseDown, screenToCanvas,
      getShapeAtPoint, isPointInShape, getShapeBounds, pushToHistory,
      MAX_HISTORY_SIZE, flatTrig, List.find?])
    (by norm_num [demoDragging, demoIdle, demoSelectState, demoRectShape,
      initialCanvasState, initialHistory, handleMouseDown, screenToCanvas,
      getShapeAtPoint, isPointInShape, getShapeBounds, pushToHistory,
      MAX_HISTORY_SIZE, flatTrig, List.find?])
    (by norm_num [demoDragging, demoIdle, demoSelectState, demoRectShape,
      initialCanvasState, initialHistory, handleMouseDown, screenToCanvas,
      getShapeAtPoint, isPointInShape, getShapeBounds, pushToHistory,
      MAX_HISTORY_SIZE, flatTrig, List.find?])
    (by norm_num [demoDragging, demoIdle, demoSelectState, demoRectShape,
      initialCanvasState, initialHistory, handleMouseDown, screenToCanvas,
      getShapeAtPoint, isPointInShape, getShapeBounds, pushToHistory,
      MAX_HISTORY_SIZE, flatTrig, List.find?])

/-- C7 counterexample: duplicating the selected demo rectangle appends the
    copy with selected set to false; no shape in the result carries
    selected = true even though selectedShapeId names the copy, so the
    claim that the copy alone is flagged selected = true is false. -/
theorem duplicate_copy_not_flagged :
    ((duplicateSelectedShape demoSelectedHistory "b").present.shapes.map Shape.selected)
      = [some false, some false]
    ∧ (duplicateSelectedShape demoSelectedHistory "b").present.selectedShapeId
      = some "b" := by
  constructor <;>
    simp [duplicateSelectedShape, demoSelectedHistory, demoSelectState, demoRectShape,
      initialHistory, initialCanvasState, pushToHistory, MAX_HISTORY_SIZE, List.find?]

/-- C7 corrected claim: with a selected shape present, duplicate appends a
    copy of it carrying the fresh id, offset by 20 in x and y, with
    selected set to false (not true); every shape in the original list is
    deselected, selectedShapeId points at the copy, the change is a
    history commit (future cleared), and one undo returns the pre-duplicate
    present snapshot. -/
theorem duplicate_selected_shape_spec (h : HistoryState) (freshId sid : String)
    (sel : Shape)
    (hsel : h.present.selectedShapeId = some sid)
    (hfind : h.present.shapes.find? (fun s => s.id == sid) = some sel) :
    (duplicateSelectedShape h freshId).present.shapes
      = (h.present.shapes.map fun s => { s with selected := some false })
        ++ [{ sel with id := freshId, x := sel.x + 20, y := sel.y + 20, selected := some false }]
    ∧ (duplicateSelectedShape h freshId).present.selectedShapeId = some freshId
    ∧ (duplicateSelectedShape h freshId).future = []
    ∧ (undo (duplicateSelectedShape h freshId)).1.present = h.present := by
  have hd : duplicateSelectedShape h freshId
      = pushToHistory h { h.present with
          shapes := (h.present.shapes.map fun s => { s with selected := some false })
            ++ [{ sel with id := freshId, x := sel.x + 20, y := sel.y + 20, selected := some false }]
          selectedShapeId := some freshId } := by
    simp only [duplicateSelectedShape, hsel, hfind]
  rw [hd]
  refine ⟨rfl, rfl, rfl, ?_⟩
  unfold undo
  rw [pushToHistory_getLast]

/-- Witness for duplicate_selected_shape_spec at the demo document whose
    rectangle is selected. -/
theorem duplicate_selected_shape_spec_witness :
    (duplicateSelectedShape demoSelectedHistory "b").present.shapes
      = (demoSelectedHistory.present.shapes.map fun s => { s with selected := some false })
        ++ [{ ({ demoRectShape with selected := some true } : Shape) with
              id := "b"
              x := ({ demoRectShape with selected := some true } : Shape).x + 20
              y := ({ demoRectShape with selected := some true } : Shape).y + 20
              selected := some false }]
    ∧ (duplicateSelectedShape demoSelectedHistory "b").present.selectedShapeId = some "b"
    ∧ (duplicateSelectedShape demoSelectedHistory "b").future = []
    ∧ (undo (duplicateSelectedShape demoSelectedHistory "b")).1.present
      = demoSelectedHistory.present :=
  duplicate_selected_shape_spec demoSelectedHistory "b" "a"
    { demoRectShape with selected := some true } rfl rfl

lemma le_foldl_max_init (l : List ℚ) (init : ℚ) : init ≤ l.foldl max init := by
  induction l generalizing init with
  | nil => exact le_refl _
  | cons b t ih => exact le_trans (le_max_left init b) (ih (max init b))

lemma le_foldl_max_mem (l : List ℚ) (init x : ℚ) (hx : x ∈ l) :
    x ≤ l.foldl max init := by
  induction l generalizing init with
  | nil => simp at hx
  | cons b t ih =>
      rcases List.mem_cons.mp hx with rfl | hmem
      · exact le_trans (le_max_right init x) (le_foldl_max_init t (max init x))
      · exact ih (max init b) hmem

lemma le_listMax (l : List ℚ) (x : ℚ) (hx : x ∈ l) : x ≤ listMax l := by
  cases l with
  | nil => simp at hx
  | cons a t =>
      show x ≤ t.foldl max a
      rcases List.mem_cons.mp hx with rfl | hmem
      · exact le_foldl_max_init t x
      · exact le_foldl_max_mem t a x hmem

lemma code_eq_specTextZIndex (shapes : List Shape) :
    (if shapes.length > 0 then listMax (shapes.map zIndexOrZero) + 1 else 0 : ℚ)
      = specTextZIndex shapes := by
  cases shapes with
  | nil => norm_num [specTextZIndex]
  | cons a t =>
      rw [if_pos (by simp)]
      simp [specTextZIndex, add_comm]

/-- C8: submitting text whose trimmed form is non-blank appends exactly
    one text shape at the pending anchor — width text length times the
    fontSize times 0.6, height the fontSize, zIndex given by the spec
    formula one plus the maximum existing zIndex (read with default 0,
    and taken to be minus one on an empty document), hence strictly above
    every existing shape's zIndex — while blank text leaves the shape list
    unchanged. -/
theorem text_submit_spec (freshId : String) (i : InteractionState) (txt : String) :
    (jsTrim txt ≠ "" →
      (handleTextSubmit freshId i txt).hist.present.shapes
        = i.hist.present.shapes ++
          [{ id := freshId
             x := i.textInput.x, y := i.textInput.y
             width := (txt.length : ℚ) * i.hist.present.fontSize * (6/10)
             height := i.hist.present.fontSize
             strokeColor := i.hist.present.strokeColor
             fillColor := i.hist.present.fillColor
             strokeWidth := i.hist.present.strokeWidth
             roughness := i.hist.present.roughness
             zIndex := some (specTextZIndex i.hist.present.shapes)
             kind := .text txt i.hist.present.fontSize i.hist.present.fontFamily }]
      ∧ ∀ s ∈ i.hist.present.shapes,
          zIndexOrZero s < specTextZIndex i.hist.present.shapes)
    ∧ (jsTrim txt = "" →
      (handleTextSubmit freshId i txt).hist.present.shapes
        = i.hist.present.shapes) := by
  constructor
  · intro htrim
    constructor
    · simp only [handleTextSubmit, if_pos htrim, pushToHistory]
      rw [code_eq_specTextZIndex]
    · intro s hs
      have hle := le_listMax (i.hist.present.shapes.map zIndexOrZero)
        (zIndexOrZero s) (List.mem_map_of_mem _ hs)
      have hne : i.hist.present.shapes.isEmpty = false := by
        cases hsh : i.hist.present.shapes with
        | nil => rw [hsh] at hs; simp at hs
        | cons a t => simp
      unfold specTextZIndex
      rw [hne]
      simp only [Bool.false_eq_true, if_false]
      linarith
  · intro htrim
    simp only [handleTextSubmit, if_neg (not_not_intro htrim)]

/-- Witness for text_submit_spec: the text hi submitted over the demo
    document, and a blank submission over the same document. -/
theorem text_submit_spec_witness :
    ((handleTextSubmit "t1" demoIdle "hi").hist.present.shapes
        = demoIdle.hist.present.shapes ++
          [{ id := "t1"
             x := demoIdle.textInput.x, y := demoIdle.textInput.y
             width := (("hi").length : ℚ) * demoIdle.hist.present.fontSize * (6/10)
             height := demoIdle.hist.present.fontSize
             strokeColor := demoIdle.hist.present.strokeColor
             fillColor := demoIdle.hist.present.fillColor
             strokeWidth := demoIdle.hist.present.strokeWidth
             roughness := demoIdle.hist.present.roughness
             zIndex := some (specTextZIndex demoIdle.hist.present.shapes)
             kind := .text "hi" demoIdle.hist.present.fontSize
               demoIdle.hist.present.fontFamily }]
      ∧ ∀ s ∈ demoIdle.hist.present.shapes,
          zIndexOrZero s < specTextZIndex demoIdle.hist.present.shapes)
    ∧ (handleTextSubmit "t2" demoIdle "   ").hist.present.shapes
        = demoIdle.hist.present.shapes :=
  ⟨(text_submit_spec "t1" demoIdle "hi").1 (by decide),
   (text_submit_spec "t2" demoIdle "   ").2 (by decide)⟩

/-- C9: a parse failure yields exactly the reported error Invalid JSON
    file and no state; a parsed document lacking the viewport key receives
    the default viewport of offset 0, 0 and zoom 1; a parsed document with
    a viewport keeps it; every other field passes through unvalidated in
    both successful cases. -/
theorem import_from_json_spec :
    importFromJSON none = .error "Invalid JSON file"
    ∧ (∀ d : ImportedDoc, d.viewport = none →
        importFromJSON (some d)
          = .ok { shapes := d.shapes, selectedShapeId := d.selectedShapeId
                  currentTool := d.currentTool, strokeColor := d.strokeColor
                  fillColor := d.fillColor, strokeWidth := d.strokeWidth
                  roughness := d.roughness, fontSize := d.fontSize
                  fontFamily := d.fontFamily
                  viewport := { offsetX := 0, offsetY := 0, zoom := 1 } })
    ∧ (∀ (d : ImportedDoc) (vp : ViewportState), d.viewport = some vp →
        importFromJSON (some d)
          = .ok { shapes := d.shapes, selectedShapeId := d.selectedShapeId
                  currentTool := d.currentTool, strokeColor := d.strokeColor
                  fillColor := d.fillColor, strokeWidth := d.strokeWidth
                  roughness := d.roughness, fontSize := d.fontSize
                  fontFamily := d.fontFamily
                  viewport := vp }) := by
  refine ⟨rfl, ?_, ?_⟩
  · intro d hvp
    simp [importFromJSON, hvp]
  · intro d vp hvp
    simp [importFromJSON, hvp]

/-- Witness for import_from_json_spec at a concrete document that lacks
    the viewport key. -/
theorem import_from_json_spec_witness :
    importFromJSON (some demoImportDoc)
      = .ok { shapes := demoImportDoc.shapes
              selectedShapeId := demoImportDoc.selectedShapeId
              currentTool := demoImportDoc.currentTool
              strokeColor := demoImportDoc.strokeColor
              fillColor := demoImportDoc.fillColor
              strokeWidth := demoImportDoc.strokeWidth
              roughness := demoImportDoc.roughness
              fontSize := demoImportDoc.fontSize
              fontFamily := demoImportDoc.fontFamily
              viewport := { offsetX := 0, offsetY := 0, zoom := 1 } } :=
  import_from_json_spec.2.1 demoImportDoc rfl

end LocalCanvas
